import Mathlib

/-!
# Verification of the InsaneAnalytics event buffering and delivery subsystem

Shallow embedding of `src/core.js` (class `InsaneAnalytics`): the event
queue, the batch dispatcher (`sendBatch`), the exit path (`handleExit`),
the engagement tracker (`handleActivity`, `handleScroll`,
`handleVisibilityChange`), configuration defaulting (the constructor) and
event construction (`track`).

Modelling conventions:
* events carried by the queue are abstracted to an arbitrary type `α`
  (queue/dispatch logic never inspects an event);
* `this.queue.splice(0, n)` is `List.take n` / `List.drop n`,
  `this.queue.unshift(...batch)` is `batch ++ queue`,
  `this.queue.push(e)` is `queue ++ [e]`;
* an `async` JS function body runs synchronously up to its first `await`,
  so the dequeue in `sendBatch` happens atomically at call time while the
  success/failure of the `fetch` is resolved later;
* JS `Math.round` on a quotient is `round` on `ℚ` (both are
  `⌊x + 1/2⌋`); division by zero yields `0` in `ℚ`, all concrete inputs
  used below keep the denominator nonzero;
* `Date.now()` instants are integers (milliseconds).
-/

namespace InsaneAnalytics

/-! ## Event queue primitives (src/core.js `sendBatch`, lines 202-222) -/

/-- Model of `const batch = this.queue.splice(0, batchSize)`: the removed
batch and
the remaining queue. -/
def dequeueBatch (batchSize : ℕ) (q : List α) : List α × List α :=
  (q.take batchSize, q.drop batchSize)

/-- Model of `this.queue.unshift(...batch)`: reinsert a failed batch at the
head. -/
def requeueFront (batch q : List α) : List α :=
  batch ++ q

/-- Transport outcome of one confirmable `fetch`: the request may error
(network failure, rejected promise) or produce a response whose `ok` flag
is inspected (`if (!response.ok) throw`). -/
inductive FetchOutcome
  | err
  | resp (ok : Bool)
  deriving DecidableEq, Repr

/-- Resolution of an in-flight confirmable batch, from the
`try { ... if (!response.ok) throw ... } catch { this.queue.unshift(...batch) }`
body of `sendBatch`: a thrown error — whether from the fetch itself or from
a non-ok response — lands in the same `catch`, which requeues the batch at
the front of the (current) queue; a successful ok response discards it. -/
def resolveBatch (r : FetchOutcome) (batch q : List α) : List α :=
  match r with
  | .resp true => q
  | .resp false => requeueFront batch q
  | .err => requeueFront batch q

/-! ## Serialized dispatcher machine

State visible to the claims: the queue and the concatenation of all
successfully delivered batches, in completion order.  A `flush` command is
one `sendBatch` call whose outcome resolves before the next queue
operation (the serialized discipline of spec §4.3); `append` is one
`this.queue.push(event)` by a producer.  -/

structure DState (α : Type u) where
  queue : List α
  delivered : List α
  deriving DecidableEq, Repr

/-- One `sendBatch` call together with its resolution:
`if (this.queue.length === 0) return;` then splice off up to `batchSize`
events; on ok-response the batch is gone (delivered), on error or non-ok
response the `catch` block unshifts it back. -/
def flushStep (batchSize : ℕ) (ok : Bool) (s : DState α) : DState α :=
  if s.queue.isEmpty then s
  else
    let (batch, rest) := dequeueBatch batchSize s.queue
    if ok then { queue := rest, delivered := s.delivered ++ batch }
    else { queue := requeueFront batch rest, delivered := s.delivered }

/-- One producer append (`this.queue.push(event)`). -/
def appendStep (e : α) (s : DState α) : DState α :=
  { s with queue := s.queue ++ [e] }

/-- A dispatcher command: an append of one event, or one serialized
confirmable flush attempt carrying its success/failure outcome. -/
inductive DCmd (α : Type u)
  | append (e : α)
  | flush (ok : Bool)

def dStep (batchSize : ℕ) (s : DState α) : DCmd α → DState α
  | .append e => appendStep e s
  | .flush ok => flushStep batchSize ok s

def dRun (batchSize : ℕ) (cmds : List (DCmd α)) (s : DState α) : DState α :=
  cmds.foldl (dStep batchSize) s

/-- The events appended by a command sequence, in append order. -/
def appendsOf : List (DCmd α) → List α
  | [] => []
  | .append e :: cs => e :: appendsOf cs
  | .flush _ :: cs => appendsOf cs

/-! ## Split dispatcher machine

The faithful asynchronous semantics: a `sendBatch` call dequeues its batch
synchronously (before the first `await`), the fetch outcome arrives later
as a separate event-loop callback.  Several batches may be in flight at
once (`pending`); a `settle` command resolves one of them. -/

structure XState (α : Type u) where
  queue : List α
  pending : List (List α)
  delivered : List α
  deriving DecidableEq, Repr

inductive XCmd (α : Type u)
  | append (e : α)
  | attempt
  | settle (i : ℕ) (r : FetchOutcome)

def xStep (batchSize : ℕ) (s : XState α) : XCmd α → XState α
  | .append e => { s with queue := s.queue ++ [e] }
  | .attempt =>
      if s.queue.isEmpty then s
      else
        { queue := (dequeueBatch batchSize s.queue).2,
          pending := s.pending ++ [(dequeueBatch batchSize s.queue).1],
          delivered := s.delivered }
  | .settle i r =>
      match s.pending.get? i with
      | none => s
      | some b =>
          { queue := resolveBatch r b s.queue,
            pending := s.pending.eraseIdx i,
            delivered :=
              if r = .resp true then s.delivered ++ b else s.delivered }

def xRun (batchSize : ℕ) (cmds : List (XCmd α)) (s : XState α) : XState α :=
  cmds.foldl (xStep batchSize) s

def xAppendsOf : List (XCmd α) → List α
  | [] => []
  | .append e :: cs => e :: xAppendsOf cs
  | .attempt :: cs => xAppendsOf cs
  | .settle _ _ :: cs => xAppendsOf cs

/-! ## Exit path (src/core.js `handleExit`, lines 115-131, and `track`,
lines 178-196)

`handleExit` first calls `this.track('page_exit', {...})`.  `track`
pushes the event and then, `if (this.queue.length >= this.config.batchSize)`,
calls `sendBatch()`; although `sendBatch` is `async`, its
`this.queue.splice(0, this.config.batchSize)` runs synchronously before
the first `await`, so the threshold-triggered confirmable dequeue (and the
issuing of its fetch) happens during the `track` call, before control
returns to `handleExit`.  Then, `if (navigator.sendBeacon)`, `handleExit`
splices the *entire remaining* queue and hands it to `sendBeacon` in one
call; otherwise the queue is left as it stands. -/

structure ExitResult (α : Type u) where
  queue : List α
  /-- bodies of confirmable fetches issued during the call, in order -/
  fetchSends : List (List α)
  /-- bodies of `sendBeacon` calls, in order -/
  beaconSends : List (List α)
  deriving DecidableEq, Repr

/-- Queue effect of `track(eventType, data)`: push the
event, then run the synchronous prefix of `sendBatch` when the threshold
is reached.  Returns the fetch bodies issued and the remaining queue. -/
def trackPush (batchSize : ℕ) (q : List α) (e : α) :
    List (List α) × List α :=
  let q1 := q ++ [e]
  if batchSize ≤ q1.length then
    if q1.isEmpty then ([], q1)
    else ([(dequeueBatch batchSize q1).1], (dequeueBatch batchSize q1).2)
  else ([], q1)

/-- Model of `handleExit`: track the `page_exit` event (threshold flush
included),
then — only if `navigator.sendBeacon` exists — splice the whole remaining
queue into a single beacon payload. -/
def handleExit (batchSize : ℕ) (q : List α) (exitEv : α)
    (beaconAvailable : Bool) : ExitResult α :=
  let tp := trackPush batchSize q exitEv
  if beaconAvailable then
    { queue := [], fetchSends := tp.1, beaconSends := [tp.2] }
  else
    { queue := tp.2, fetchSends := tp.1, beaconSends := [] }

/-! ## Engagement tracker (src/core.js lines 77-131)

State fields and handlers of the `InsaneAnalytics` instance that the
activity/scroll/visibility/exit signals mutate.  The queue is independent
of this state (flushing never changes what gets tracked), so here
`tracked` is the append-only log of `this.track(...)` calls, each with the
payload fields the handler passes. -/

/-- One `track` call made by an engagement handler, with its payload. -/
inductive TrackedEv
  | activityStart
  | scrollDepth (depth : ℤ)
  | pageHide (activeTime totalTime : ℤ)
  | pageShow
  | pageExit (activeTime totalTime maxDepth : ℤ) (interactions : ℕ)
  deriving DecidableEq, Repr

structure EngState where
  isActive : Bool
  startTime : ℤ
  lastActiveTime : ℤ
  activeTime : ℤ
  interactions : ℕ
  maxScrollDepth : ℤ
  tracked : List TrackedEv
  deriving DecidableEq, Repr

/-- Constructor state: `startTime = lastActiveTime = Date.now()`,
`activeTime = 0`, `isActive = false`, `interactions = 0`,
`maxScrollDepth = 0`. -/
def initEng (now : ℤ) : EngState :=
  { isActive := false, startTime := now, lastActiveTime := now,
    activeTime := 0, interactions := 0, maxScrollDepth := 0, tracked := [] }

/-- Model of `handleActivity` (lines 77-91): on the first signal set
`isActive` and
track `activity_start`; if more than a second elapsed since
`lastActiveTime`, add the delta to `activeTime`; always set
`lastActiveTime := now` and increment `interactions`. -/
def handleActivity (now : ℤ) (s : EngState) : EngState :=
  let s1 := if s.isActive then s
    else { s with isActive := true,
                  tracked := s.tracked ++ [TrackedEv.activityStart] }
  let s2 := if 1000 < now - s1.lastActiveTime
    then { s1 with activeTime := s1.activeTime + (now - s1.lastActiveTime) }
    else s1
  { s2 with lastActiveTime := now, interactions := s2.interactions + 1 }

/-- Model of `Math.round((scrollTop / (docHeight - winHeight)) * 100)` from
`handleScroll` (line 97); `round` on `ℚ` is `⌊x + 1/2⌋`, as in JS. -/
def currentDepth (scrollTop winHeight docHeight : ℤ) : ℤ :=
  round (((scrollTop : ℚ) / ((docHeight : ℚ) - (winHeight : ℚ))) * 100)

/-- Model of `handleScroll` (lines 93-103): update `maxScrollDepth` and
track a
`scroll_depth` event carrying the new depth exactly when the current
depth strictly exceeds the maximum so far. -/
def handleScroll (scrollTop winHeight docHeight : ℤ) (s : EngState) :
    EngState :=
  let d := currentDepth scrollTop winHeight docHeight
  if s.maxScrollDepth < d then
    { s with maxScrollDepth := d,
             tracked := s.tracked ++ [TrackedEv.scrollDepth d] }
  else s

/-- Model of `handleVisibilityChange` (lines 105-113). -/
def handleVisibilityChange (hidden : Bool) (now : ℤ) (s : EngState) :
    EngState :=
  if hidden then
    { s with tracked := s.tracked
        ++ [TrackedEv.pageHide s.activeTime (now - s.startTime)] }
  else { s with tracked := s.tracked ++ [TrackedEv.pageShow] }

/-- The `this.track('page_exit', {...})` call of `handleExit`
(lines 116-121), engagement view. -/
def trackPageExit (now : ℤ) (s : EngState) : EngState :=
  { s with tracked := s.tracked
      ++ [TrackedEv.pageExit s.activeTime (now - s.startTime)
            s.maxScrollDepth s.interactions] }

/-- A raw external signal dispatched to the handlers wired in
`setupEventListeners`. -/
inductive Signal
  | activity (now : ℤ)
  | scroll (scrollTop winHeight docHeight : ℤ)
  | visibility (hidden : Bool) (now : ℤ)
  | exitSig (now : ℤ)

def engStep (s : EngState) : Signal → EngState
  | .activity now => handleActivity now s
  | .scroll a b c => handleScroll a b c s
  | .visibility hidden now => handleVisibilityChange hidden now s
  | .exitSig now => trackPageExit now s

def engRun (sigs : List Signal) (s : EngState) : EngState :=
  sigs.foldl engStep s

/-- A scroll signal the browser can actually report for a scrollable
document: scroll offset between `0` and the maximum scroll
`docHeight - winHeight`, which is positive.  Non-scroll signals are
unconstrained. -/
def scrollSignalOK : Signal → Prop
  | .scroll a b c => 0 ≤ a ∧ a ≤ c - b ∧ b < c
  | _ => True

/-! ## Configuration (constructor, src/core.js lines 10-16) -/

/-- Caller-supplied construction options; `none` models an absent,
`undefined` or `null` field. -/
structure RawConfig where
  endpoint : Option String := none
  domainId : Option String := none
  batchSize : Option ℤ := none
  batchInterval : Option ℤ := none
  debug : Option Bool := none

structure Config where
  endpoint : String
  domainId : Option String
  batchSize : ℤ
  batchInterval : ℤ
  debug : Bool
  deriving DecidableEq, Repr

/-- JS `x || d` for a possibly-absent number: absent, `null` and `0` are
falsy and select the default. -/
def jsOrInt (v : Option ℤ) (d : ℤ) : ℤ :=
  match v with
  | none => d
  | some x => if x = 0 then d else x

/-- JS `x || d` for a possibly-absent string: absent, `null` and `""` are
falsy and select the default. -/
def jsOrStr (v : Option String) (d : String) : String :=
  match v with
  | none => d
  | some x => if x = "" then d else x

/-- JS `x || false` for a possibly-absent boolean. -/
def jsOrBool (v : Option Bool) : Bool :=
  match v with
  | none => false
  | some b => b

/-- Model of `s.replace(/\/$/, '')`: remove one trailing slash. -/
def stripTrailingSlash (s : String) : String :=
  if s.endsWith "/" then s.dropRight 1 else s

/-- The `this.config` object as built by the constructor:
`endpoint: config.endpoint?.replace(/\/$/, '') || '...'` (the optional
chaining passes absence through the strip), `batchSize: config.batchSize
|| 10`, `batchInterval: config.batchInterval || 5000`,
`debug: config.debug || false`; `domainId` has no default. -/
def mkConfig (c : RawConfig) : Config :=
  { endpoint := jsOrStr (c.endpoint.map stripTrailingSlash)
      "https://api.insaneanalytics.com",
    domainId := c.domainId,
    batchSize := jsOrInt c.batchSize 10,
    batchInterval := jsOrInt c.batchInterval 5000,
    debug := jsOrBool c.debug }

/-! ## Event construction (`track`, src/core.js lines 178-196) -/

/-- The envelope values `track` computes before spreading the payload. -/
structure Envelope (V : Type u) where
  eventType : V
  timestamp : V
  visitorId : V
  sessionId : V
  domainId : V
  url : V
  userAgent : V

/-- The envelope bindings of the `track` object literal, in source
order. -/
def envelopeFields (e : Envelope V) : List (String × V) :=
  [("eventType", e.eventType), ("timestamp", e.timestamp),
   ("visitorId", e.visitorId), ("sessionId", e.sessionId),
   ("domainId", e.domainId), ("url", e.url), ("userAgent", e.userAgent)]

/-- The literal `{ eventType, timestamp, visitorId, sessionId, domainId,
url, userAgent, ...data }`: envelope bindings followed by the spread
payload bindings, at the top level — there is no `payload:` field. -/
def mkEvent (e : Envelope V) (data : List (String × V)) :
    List (String × V) :=
  envelopeFields e ++ data

/-- Property lookup on such a literal: for duplicate keys the later
binding wins, as in a JS object literal with spread. -/
def jsGet (obj : List (String × V)) (k : String) : Option V :=
  (obj.reverse.find? (fun p => p.1 == k)).map Prod.snd

end InsaneAnalytics

namespace InsaneAnalytics

/-! ## C2 -/

/-- Invariant of the serialized dispatcher: the delivered log followed by
the current queue is exactly the initial contents followed by all appended
events, in append order. -/
lemma dRun_delivered_append_queue (batchSize : ℕ) (cmds : List (DCmd α))
    (s : DState α) :
    (dRun batchSize cmds s).delivered ++ (dRun batchSize cmds s).queue
      = s.delivered ++ (s.queue ++ appendsOf cmds) := by
  induction cmds generalizing s with
  | nil => simp [dRun, appendsOf]
  | cons c cs ih =>
    cases c with
    | append e =>
      have h := ih (appendStep e s)
      simp only [dRun, List.foldl_cons] at *
      rw [show dStep batchSize s (DCmd.append e) = appendStep e s from rfl, h]
      simp [appendStep, appendsOf]
    | flush ok =>
      have h := ih (flushStep batchSize ok s)
      simp only [dRun, List.foldl_cons] at *
      rw [show dStep batchSize s (DCmd.flush ok) = flushStep batchSize ok s from rfl, h]
      have hq : (flushStep batchSize ok s).delivered ++ (flushStep batchSize ok s).queue
          = s.delivered ++ s.queue := by
        unfold flushStep dequeueBatch requeueFront
        rcases s with ⟨q, d⟩
        cases q with
        | nil => simp
        | cons a t => cases ok <;> simp
      calc (flushStep batchSize ok s).delivered
            ++ ((flushStep batchSize ok s).queue ++ appendsOf cs)
          = ((flushStep batchSize ok s).delivered
            ++ (flushStep batchSize ok s).queue) ++ appendsOf cs := by
            rw [List.append_assoc]
        _ = (s.delivered ++ s.queue) ++ appendsOf cs := by rw [hq]
        _ = s.delivered ++ (s.queue ++ appendsOf cs) := by rw [List.append_assoc]

/-- C2 (amended): Under the serialized flush discipline — each
confirmable attempt's outcome resolves before the next dequeue, with
producer appends interleaved freely — the delivered order across all
successful batches equals the append order exactly: starting from an empty
queue, delivered ++ queue is the full append sequence, so the delivered
log is always a prefix of the append order; a failed batch, requeued at
the head, is retried and delivered before any later-appended event. -/
theorem delivered_order_eq_append_order_serialized
    (batchSize : ℕ) (cmds : List (DCmd α)) :
    (dRun batchSize cmds ⟨[], []⟩).delivered
        ++ (dRun batchSize cmds ⟨[], []⟩).queue = appendsOf cmds
    ∧ (dRun batchSize cmds ⟨[], []⟩).delivered <+: appendsOf cmds := by
  have h := dRun_delivered_append_queue batchSize cmds (⟨[], []⟩ : DState α)
  simp only [List.nil_append] at h
  exact ⟨h, ⟨(dRun batchSize cmds ⟨[], []⟩).queue, h⟩⟩

/-- C2 (counterexample): With overlapping in-flight attempts the claim
fails on the code: with `batchSize = 2`, append `1, 2` (threshold flush
dequeues `[1,2]`), append `3`, timer flush dequeues `[3]` while `[1,2]` is
still in flight; `[1,2]` then fails (and is requeued at the head, so the
exception clause of the claim is honoured — nothing was appended after the
failure), `[3]` succeeds, and the retry of `[1,2]` succeeds.  All three
events are delivered, yet the delivered order is `[3, 1, 2]`, not the
append order `[1, 2, 3]`. -/
theorem interleaved_flush_breaks_append_order :
    (xRun 2 [XCmd.append 1, XCmd.append 2, XCmd.attempt, XCmd.append 3,
        XCmd.attempt, XCmd.settle 0 FetchOutcome.err,
        XCmd.settle 0 (FetchOutcome.resp true), XCmd.attempt,
        XCmd.settle 0 (FetchOutcome.resp true)]
      (⟨[], [], []⟩ : XState ℕ)).delivered = [3, 1, 2]
    ∧ xAppendsOf [XCmd.append 1, XCmd.append 2, XCmd.attempt, XCmd.append 3,
        XCmd.attempt, XCmd.settle 0 FetchOutcome.err,
        XCmd.settle 0 (FetchOutcome.resp true), XCmd.attempt,
        XCmd.settle 0 (FetchOutcome.resp true)] = [1, 2, 3]
    ∧ ([3, 1, 2] : List ℕ) ≠ [1, 2, 3] := by
  refine ⟨?_, ?_, by decide⟩ <;> rfl

/-! ## C3 -/

/-- C3: A successful confirmable flush that delivers `N` events
(`N = (s.queue.take batchSize).length`) decreases the queue length by
exactly `N`, appends exactly that batch to the delivered log, and loses or
duplicates nothing (the dequeued batch prepended to the new queue is the
old queue); a failed confirmable flush leaves the state literally
unchanged — state-unchanged-on-error atomicity of `sendBatch`. -/
theorem sendBatch_atomicity (batchSize : ℕ) (s : DState α) :
    (flushStep batchSize true s).queue.length
        + (s.queue.take batchSize).length = s.queue.length
    ∧ (flushStep batchSize true s).delivered
        = s.delivered ++ s.queue.take batchSize
    ∧ s.queue.take batchSize ++ (flushStep batchSize true s).queue = s.queue
    ∧ flushStep batchSize false s = s := by
  unfold flushStep dequeueBatch requeueFront
  rcases s with ⟨q, d⟩
  cases q with
  | nil => simp
  | cons a t =>
    refine ⟨?_, by simp, by simp, by simp⟩
    simp [List.length_take, List.length_drop]
    omega

/-! ## C1 -/

/-- C1 (counterexample): The spec's own scenario refutes the claim:
`batchSize = 2`, queue `[1, 2, 3]`, beacon available.  Pushing the
`page_exit` event (modelled as `0`) brings the queue to length `4 ≥ 2`, so
`track` triggers a threshold `sendBatch` whose synchronous splice dequeues
`[1, 2]` onto the *confirmable* transport before `handleExit` reaches the
beacon; the single beacon payload is only `[3, 0]`, not all queued events.
(The queue does end empty.) -/
theorem handleExit_counterexample :
    (handleExit 2 [1, 2, 3] (0 : ℕ) true).beaconSends = [[3, 0]]
    ∧ (handleExit 2 [1, 2, 3] (0 : ℕ) true).fetchSends = [[1, 2]]
    ∧ (1 : ℕ) ∉ ([3, 0] : List ℕ)
    ∧ ([[3, 0]] : List (List ℕ)) ≠ [[1, 2, 3, 0]] := by
  exact ⟨rfl, rfl, by decide, by decide⟩

/-- C1 (amended): When the exit signal fires with `sendBeacon`
available, the queue is empty afterwards and every queued event plus the
appended `page_exit` event is dispatched exactly once, in order — but
split across transports: if pushing `page_exit` reaches the `batchSize`
threshold, `track` first dequeues the oldest `batchSize` events onto the
confirmable transport, and the beacon carries only the remainder.  Only
when the queue (including `page_exit`) stays below `batchSize` does the
beacon send all events in a single payload. -/
theorem handleExit_beacon_drains_remainder (batchSize : ℕ) (q : List α)
    (e : α) :
    (handleExit batchSize q e true).queue = []
    ∧ (handleExit batchSize q e true).fetchSends.flatten
        ++ (handleExit batchSize q e true).beaconSends.flatten = q ++ [e]
    ∧ (q.length + 1 < batchSize →
        (handleExit batchSize q e true).fetchSends = []
        ∧ (handleExit batchSize q e true).beaconSends = [q ++ [e]]) := by
  refine ⟨rfl, ?_, ?_⟩
  · unfold handleExit trackPush dequeueBatch
    by_cases h : batchSize ≤ q.length + 1
    · simp [h]
    · simp [h]
  · intro h
    have h' : ¬ batchSize ≤ q.length + 1 := by omega
    unfold handleExit trackPush
    simp [h']

/-- Witness for `handleExit_beacon_drains_remainder` at `batchSize = 5`,
queue `[1, 2]`, exit event `0`. -/
theorem handleExit_beacon_drains_remainder_witness :
    (handleExit 5 [1, 2] (0 : ℕ) true).queue = []
    ∧ (handleExit 5 [1, 2] (0 : ℕ) true).fetchSends = []
    ∧ (handleExit 5 [1, 2] (0 : ℕ) true).beaconSends = [[1, 2, 0]] :=
  ⟨(handleExit_beacon_drains_remainder 5 [1, 2] 0).1,
   ((handleExit_beacon_drains_remainder 5 [1, 2] 0).2.2 (by norm_num)).1,
   ((handleExit_beacon_drains_remainder 5 [1, 2] 0).2.2 (by norm_num)).2⟩

/-! ## C9 -/

/-- C9 (counterexample): With `sendBeacon` unavailable, `batchSize = 1`
and an empty queue, `handleExit` does *not* leave the queue untouched with
`page_exit` (modelled as `0`) retained: pushing `page_exit` reaches the
threshold, so `track` dequeues it onto the confirmable transport — a flush
does occur, and the queue ends `[]`, not `[0]`. -/
theorem handleExit_no_beacon_counterexample :
    (handleExit 1 ([] : List ℕ) 0 false).queue = []
    ∧ (handleExit 1 ([] : List ℕ) 0 false).fetchSends = [[0]]
    ∧ ([] : List ℕ) ≠ [0]
    ∧ ([[0]] : List (List ℕ)) ≠ [] := by
  exact ⟨rfl, rfl, by decide, by decide⟩

/-- C9 (amended): If `navigator.sendBeacon` is unavailable at exit
time, `handleExit` appends `page_exit` and performs no beacon send.  If
the queue including `page_exit` stays below `batchSize`, no flush of any
kind occurs and every event (including `page_exit`) remains queued,
undelivered; if it reaches `batchSize`, the threshold flush triggered by
`track` dequeues the oldest `batchSize` events onto the confirmable
transport and only the remainder stays queued. -/
theorem handleExit_no_beacon (batchSize : ℕ) (q : List α) (e : α) :
    (handleExit batchSize q e false).beaconSends = []
    ∧ (q.length + 1 < batchSize →
        (handleExit batchSize q e false).queue = q ++ [e]
        ∧ (handleExit batchSize q e false).fetchSends = [])
    ∧ (batchSize ≤ q.length + 1 →
        (handleExit batchSize q e false).fetchSends = [(q ++ [e]).take batchSize]
        ∧ (handleExit batchSize q e false).queue = (q ++ [e]).drop batchSize) := by
  refine ⟨rfl, ?_, ?_⟩
  · intro h
    have h' : ¬ batchSize ≤ q.length + 1 := by omega
    unfold handleExit trackPush
    simp [h']
  · intro h
    unfold handleExit trackPush dequeueBatch
    simp [h]

/-- Witness for `handleExit_no_beacon`, discharging the below-threshold
hypothesis at `batchSize = 5`, queue `[1, 2]` and the at-threshold
hypothesis at `batchSize = 2`, queue `[1, 2, 3]`. -/
theorem handleExit_no_beacon_witness :
    ((handleExit 5 [1, 2] (9 : ℕ) false).queue = [1, 2, 9]
      ∧ (handleExit 5 [1, 2] (9 : ℕ) false).fetchSends = [])
    ∧ ((handleExit 2 [1, 2, 3] (9 : ℕ) false).fetchSends = [[1, 2]]
      ∧ (handleExit 2 [1, 2, 3] (9 : ℕ) false).queue = [3, 9]) :=
  ⟨(handleExit_no_beacon 5 [1, 2] 9).2.1 (by norm_num),
   ((handleExit_no_beacon 2 [1, 2, 3] 9).2.2 (by norm_num)).1,
   ((handleExit_no_beacon 2 [1, 2, 3] 9).2.2 (by norm_num)).2⟩

/-! ## C6 -/

/-- C6: A confirmable delivery attempt is treated as failed — its
batch requeued at the front — exactly when the fetch errors or the
response is non-success, and the two cases produce identical states (one
shared `catch` block); an ok response is the only success.  The
fire-and-forget exit path takes no outcome at all (`sendBeacon`'s return
value is never read, there is no callback): after the beacon send the
queue is empty, so its payload is never requeued and never retried. -/
theorem confirmable_failure_iff_requeue :
    (∀ (batch q : List α),
        resolveBatch FetchOutcome.err batch q = requeueFront batch q
        ∧ resolveBatch (FetchOutcome.resp false) batch q = requeueFront batch q
        ∧ resolveBatch (FetchOutcome.resp true) batch q = q)
    ∧ (∀ (r : FetchOutcome) (batch q : List α),
        resolveBatch r batch q =
          if r = FetchOutcome.resp true then q else requeueFront batch q)
    ∧ (∀ (batchSize : ℕ) (q : List α) (e : α),
        (handleExit batchSize q e true).queue = []) := by
  refine ⟨fun batch q => ⟨rfl, rfl, rfl⟩, ?_, fun _ _ _ => rfl⟩
  intro r batch q
  rcases r with _ | ok
  · rfl
  · cases ok <;> rfl

/-! ## C4 -/

lemma handleActivity_maxScrollDepth (now : ℤ) (s : EngState) :
    (handleActivity now s).maxScrollDepth = s.maxScrollDepth := by
  unfold handleActivity
  by_cases hA : s.isActive <;> simp [hA] <;> split <;> rfl

lemma engStep_maxScrollDepth_mono (s : EngState) (sig : Signal) :
    s.maxScrollDepth ≤ (engStep s sig).maxScrollDepth := by
  cases sig with
  | activity now => rw [engStep, handleActivity_maxScrollDepth]
  | scroll a b c =>
    show s.maxScrollDepth ≤ (handleScroll a b c s).maxScrollDepth
    by_cases h : s.maxScrollDepth < currentDepth a b c
    · simpa [handleScroll, h] using le_of_lt h
    · simp [handleScroll, h]
  | visibility hidden now =>
    show s.maxScrollDepth ≤ (handleVisibilityChange hidden now s).maxScrollDepth
    cases hidden <;> simp [handleVisibilityChange]
  | exitSig now => exact le_refl _

lemma engRun_maxScrollDepth_mono (sigs : List Signal) (s : EngState) :
    s.maxScrollDepth ≤ (engRun sigs s).maxScrollDepth := by
  induction sigs generalizing s with
  | nil => exact le_refl _
  | cons sig rest ih =>
    calc s.maxScrollDepth ≤ (engStep s sig).maxScrollDepth :=
          engStep_maxScrollDepth_mono s sig
      _ ≤ (engRun rest (engStep s sig)).maxScrollDepth := ih _
      _ = (engRun (sig :: rest) s).maxScrollDepth := rfl

/-- For a browser-realisable scroll signal the computed depth lies in
`[0, 100]`. -/
lemma currentDepth_mem (a b c : ℤ) (h0 : 0 ≤ a) (h1 : a ≤ c - b)
    (h2 : b < c) : 0 ≤ currentDepth a b c ∧ currentDepth a b c ≤ 100 := by
  unfold currentDepth
  have hden : (0 : ℚ) < (c : ℚ) - (b : ℚ) := by
    have : (b : ℚ) < (c : ℚ) := by exact_mod_cast h2
    linarith
  have ha : (0 : ℚ) ≤ (a : ℚ) := by exact_mod_cast h0
  have hle : (a : ℚ) ≤ (c : ℚ) - (b : ℚ) := by
    have h1' : ((a : ℤ) : ℚ) ≤ ((c - b : ℤ) : ℚ) := by exact_mod_cast h1
    push_cast at h1'
    linarith
  have hx0 : (0 : ℚ) ≤ (a : ℚ) / ((c : ℚ) - (b : ℚ)) := div_nonneg ha hden.le
  have hx1 : (a : ℚ) / ((c : ℚ) - (b : ℚ)) ≤ 1 := (div_le_one hden).mpr hle
  have hm0 : (0 : ℚ) ≤ (a : ℚ) / ((c : ℚ) - (b : ℚ)) * 100 :=
    mul_nonneg hx0 (by norm_num)
  have hm1 : (a : ℚ) / ((c : ℚ) - (b : ℚ)) * 100 ≤ 100 := by
    calc (a : ℚ) / ((c : ℚ) - (b : ℚ)) * 100 ≤ 1 * 100 :=
          mul_le_mul_of_nonneg_right hx1 (by norm_num)
      _ = 100 := by norm_num
  constructor
  · rw [round_eq]
    exact Int.le_floor.mpr (by push_cast; linarith)
  · rw [round_eq]
    have h101 : ⌊(a : ℚ) / ((c : ℚ) - (b : ℚ)) * 100 + 1 / 2⌋ < 101 :=
      Int.floor_lt.mpr (by push_cast; linarith)
    omega

/-- C4 (counterexample): the field `maxScrollDepth` is not always in
`[0, 100]` over all raw signals: the code never clamps the computed
depth, so a scroll offset beyond the maximum scroll (as browsers report
during rubber-banding, or after the document shrinks) drives it past 100.
With `scrollY = 200`, `innerHeight = 400`, `scrollHeight = 500` the
depth is `round(200 / 100 * 100) = 200` and `maxScrollDepth` becomes
`200`. -/
theorem maxScrollDepth_exceeds_100 :
    (engStep (initEng 0) (Signal.scroll 200 400 500)).maxScrollDepth = 200
    ∧ ¬ (engStep (initEng 0) (Signal.scroll 200 400 500)).maxScrollDepth
          ≤ 100 := by
  have hd : currentDepth 200 400 500 = 200 := by
    unfold currentDepth
    norm_num [round_eq]
  have h : (engStep (initEng 0) (Signal.scroll 200 400 500)).maxScrollDepth
      = 200 := by
    show (handleScroll 200 400 500 (initEng 0)).maxScrollDepth = 200
    unfold handleScroll
    rw [hd]
    norm_num [initEng]
  exact ⟨h, by rw [h]; norm_num⟩

/-- C4 (amended): For every sequence of raw scroll signals,
`maxScrollDepth` is monotonically non-decreasing, and a `scroll_depth`
event is tracked — carrying the new depth — exactly when the computed
depth strictly exceeds the previous maximum (so depths 30, 20, 45 emit
events for 30 and 45 only).  The bound `[0, 100]` holds only for
browser-realisable signals (`0 ≤ scrollTop ≤ docHeight - winHeight`,
`winHeight < docHeight`); the code does not clamp the computed depth. -/
theorem maxScrollDepth_monotone_bounded :
    (∀ (sigs : List Signal) (s : EngState),
        s.maxScrollDepth ≤ (engRun sigs s).maxScrollDepth)
    ∧ (∀ (a b c : ℤ) (s : EngState),
        (handleScroll a b c s).tracked = s.tracked ++
          (if s.maxScrollDepth < currentDepth a b c
            then [TrackedEv.scrollDepth (currentDepth a b c)] else []))
    ∧ (∀ (sigs : List Signal) (s : EngState),
        0 ≤ s.maxScrollDepth → s.maxScrollDepth ≤ 100 →
        (∀ sig ∈ sigs, scrollSignalOK sig) →
        0 ≤ (engRun sigs s).maxScrollDepth
          ∧ (engRun sigs s).maxScrollDepth ≤ 100)
    ∧ (engRun [Signal.scroll 30 1000 1100, Signal.scroll 20 1000 1100,
          Signal.scroll 45 1000 1100] (initEng 0)).tracked
        = [TrackedEv.scrollDepth 30, TrackedEv.scrollDepth 45] := by
  refine ⟨engRun_maxScrollDepth_mono, ?_, ?_, ?_⟩
  · intro a b c s
    by_cases h : s.maxScrollDepth < currentDepth a b c <;>
      simp [handleScroll, h]
  · intro sigs
    induction sigs with
    | nil => exact fun s h0 h100 _ => ⟨h0, h100⟩
    | cons sig rest ih =>
      intro s h0 h100 hok
      have hstep : 0 ≤ (engStep s sig).maxScrollDepth
          ∧ (engStep s sig).maxScrollDepth ≤ 100 := by
        cases sig with
        | activity now =>
          rw [engStep, handleActivity_maxScrollDepth]; exact ⟨h0, h100⟩
        | scroll a b c =>
          obtain ⟨ha, hb, hc⟩ := hok (Signal.scroll a b c) (by simp)
          show 0 ≤ (handleScroll a b c s).maxScrollDepth
            ∧ (handleScroll a b c s).maxScrollDepth ≤ 100
          by_cases h : s.maxScrollDepth < currentDepth a b c
          · simpa [handleScroll, h] using currentDepth_mem a b c ha hb hc
          · simpa [handleScroll, h] using ⟨h0, h100⟩
        | visibility hidden now =>
          show 0 ≤ (handleVisibilityChange hidden now s).maxScrollDepth
            ∧ (handleVisibilityChange hidden now s).maxScrollDepth ≤ 100
          cases hidden <;> simpa [handleVisibilityChange] using ⟨h0, h100⟩
        | exitSig now => exact ⟨h0, h100⟩
      exact ih (engStep s sig) hstep.1 hstep.2
        (fun sg hm => hok sg (List.mem_cons_of_mem _ hm))
  · have h30 : currentDepth 30 1000 1100 = 30 := by
      unfold currentDepth; norm_num [round_eq]
    have h20 : currentDepth 20 1000 1100 = 20 := by
      unfold currentDepth; norm_num [round_eq]
    have h45 : currentDepth 45 1000 1100 = 45 := by
      unfold currentDepth; norm_num [round_eq]
    norm_num [engRun, engStep, handleScroll, h30, h20, h45, initEng]

/-- Witness for `maxScrollDepth_monotone_bounded`: the bounded conjunct
at the single browser-realisable signal `scroll 30 1000 1100` from the
constructor state. -/
theorem maxScrollDepth_monotone_bounded_witness :
    0 ≤ (engRun [Signal.scroll 30 1000 1100] (initEng 0)).maxScrollDepth
    ∧ (engRun [Signal.scroll 30 1000 1100] (initEng 0)).maxScrollDepth
        ≤ 100 :=
  maxScrollDepth_monotone_bounded.2.2.1 [Signal.scroll 30 1000 1100]
    (initEng 0) (by norm_num [initEng]) (by norm_num [initEng])
    (fun sg hm => by
      simp at hm
      subst hm
      exact ⟨by norm_num, by norm_num, by norm_num⟩)

/-! ## C5 -/

/-- C5: the accumulator `activeTime` never decreases under any signal, and on an
activity signal it grows by exactly the measured delta
`now - lastActiveTime` when that delta exceeds one second (1000 ms) and
by nothing otherwise; hence, for signals with non-decreasing timestamps,
the growth never exceeds the real elapsed time since the previous
activity signal (`lastActiveTime` is always reset to `now`). -/
theorem activeTime_growth :
    (∀ (sig : Signal) (s : EngState),
        s.activeTime ≤ (engStep s sig).activeTime)
    ∧ (∀ (now : ℤ) (s : EngState),
        (handleActivity now s).activeTime = s.activeTime +
          (if 1000 < now - s.lastActiveTime then now - s.lastActiveTime
            else 0)
        ∧ (handleActivity now s).lastActiveTime = now
        ∧ (s.lastActiveTime ≤ now →
            (handleActivity now s).activeTime - s.activeTime
              ≤ now - s.lastActiveTime)) := by
  have key : ∀ (now : ℤ) (s : EngState),
      (handleActivity now s).activeTime = s.activeTime +
        (if 1000 < now - s.lastActiveTime then now - s.lastActiveTime
          else 0)
      ∧ (handleActivity now s).lastActiveTime = now := by
    intro now s
    by_cases hA : s.isActive <;>
      by_cases ht : 1000 < now - s.lastActiveTime <;>
        simp [handleActivity, hA, ht]
  refine ⟨?_, fun now s => ⟨(key now s).1, (key now s).2, fun hle => ?_⟩⟩
  · intro sig s
    cases sig with
    | activity now =>
      show s.activeTime ≤ (handleActivity now s).activeTime
      rw [(key now s).1]
      by_cases ht : 1000 < now - s.lastActiveTime
      · simp [ht]; omega
      · simp [ht]
    | scroll a b c =>
      show s.activeTime ≤ (handleScroll a b c s).activeTime
      by_cases h : s.maxScrollDepth < currentDepth a b c <;>
        simp [handleScroll, h]
    | visibility hidden now =>
      show s.activeTime ≤ (handleVisibilityChange hidden now s).activeTime
      cases hidden <;> simp [handleVisibilityChange]
    | exitSig now => exact le_refl _
  · rw [(key now s).1]
    by_cases ht : 1000 < now - s.lastActiveTime
    · simp [ht]
    · simp [ht]; omega

/-- Witness for `activeTime_growth`: one activity signal at `t = 2000`
from the constructor state at `t = 0` (delta 2000 ms, above the one
second threshold). -/
theorem activeTime_growth_witness :
    (handleActivity 2000 (initEng 0)).activeTime = (initEng 0).activeTime
        + (if 1000 < (2000 : ℤ) - (initEng 0).lastActiveTime
            then (2000 : ℤ) - (initEng 0).lastActiveTime else 0)
    ∧ (handleActivity 2000 (initEng 0)).activeTime
        - (initEng 0).activeTime ≤ 2000 - (initEng 0).lastActiveTime :=
  ⟨(activeTime_growth.2 2000 (initEng 0)).1,
   (activeTime_growth.2 2000 (initEng 0)).2.2 (by norm_num [initEng])⟩

/-! ## C7 -/

lemma engStep_preserves_active (s : EngState) (sig : Signal)
    (h : s.isActive = true) :
    (engStep s sig).isActive = true
    ∧ (engStep s sig).tracked.count TrackedEv.activityStart
        = s.tracked.count TrackedEv.activityStart := by
  cases sig with
  | activity now =>
    by_cases ht : 1000 < now - s.lastActiveTime <;>
      simp [engStep, handleActivity, h, ht]
  | scroll a b c =>
    by_cases hd : s.maxScrollDepth < currentDepth a b c <;>
      simp [engStep, handleScroll, hd, h, List.count_append,
        List.count_cons, List.count_nil]
  | visibility hidden now =>
    cases hidden <;>
      simp [engStep, handleVisibilityChange, h, List.count_append,
        List.count_cons, List.count_nil]
  | exitSig now =>
    simp [engStep, trackPageExit, h, List.count_append,
      List.count_cons, List.count_nil]

/-- C7: On the first activity signal of a session (`isActive` still
false) `handleActivity` sets `isActive` and tracks exactly one
`activity_start` event; from any state with `isActive = true`, no
sequence of further signals ever resets `isActive` or tracks another
`activity_start` (its count in the tracked log is unchanged). -/
theorem activity_start_exactly_once :
    (∀ (now : ℤ) (s : EngState), s.isActive = false →
        (handleActivity now s).isActive = true
        ∧ (handleActivity now s).tracked
            = s.tracked ++ [TrackedEv.activityStart])
    ∧ (∀ (sigs : List Signal) (s : EngState), s.isActive = true →
        (engRun sigs s).isActive = true
        ∧ (engRun sigs s).tracked.count TrackedEv.activityStart
            = s.tracked.count TrackedEv.activityStart) := by
  constructor
  · intro now s h
    by_cases ht : 1000 < now - s.lastActiveTime <;>
      simp [handleActivity, h, ht]
  · intro sigs
    induction sigs with
    | nil => exact fun s h => ⟨h, rfl⟩
    | cons sig rest ih =>
      intro s h
      obtain ⟨h1, h2⟩ := engStep_preserves_active s sig h
      obtain ⟨h3, h4⟩ := ih (engStep s sig) h1
      exact ⟨h3, h4.trans h2⟩

/-- Witness for `activity_start_exactly_once`: the first activity signal
from the constructor state, then a scroll signal; `isActive` stays true
and the log holds exactly one `activity_start`. -/
theorem activity_start_exactly_once_witness :
    (handleActivity 5 (initEng 0)).isActive = true
    ∧ (handleActivity 5 (initEng 0)).tracked
        = [] ++ [TrackedEv.activityStart]
    ∧ (engRun [Signal.scroll 30 1000 1100]
        (handleActivity 5 (initEng 0))).isActive = true :=
  ⟨(activity_start_exactly_once.1 5 (initEng 0) rfl).1,
   (activity_start_exactly_once.1 5 (initEng 0) rfl).2,
   (activity_start_exactly_once.2 [Signal.scroll 30 1000 1100]
      (handleActivity 5 (initEng 0))
      (activity_start_exactly_once.1 5 (initEng 0) rfl).1).1⟩

/-! ## C8 -/

/-- C8: Configuration defaulting uses JS truthiness, not absence:
any falsy supplied value (`0`, `""`, `null`/absent) selects the default —
`batchSize: 0` yields `10`, `batchInterval: 0` yields `5000`,
`endpoint: ""` yields the built-in endpoint, exactly as when the option
is absent — and consequently no caller can obtain a configuration with a
zero `batchSize` or `batchInterval` or an empty `endpoint`. -/
theorem config_defaults_on_falsy :
    (mkConfig { batchSize := some 0 }).batchSize = 10
    ∧ (mkConfig { batchInterval := some 0 }).batchInterval = 5000
    ∧ (mkConfig { endpoint := some "" }).endpoint
        = "https://api.insaneanalytics.com"
    ∧ (mkConfig {}).batchSize = 10
    ∧ (mkConfig {}).batchInterval = 5000
    ∧ (mkConfig {}).endpoint = "https://api.insaneanalytics.com"
    ∧ (mkConfig { debug := some false }).debug = false
    ∧ ∀ c : RawConfig, (mkConfig c).batchSize ≠ 0
        ∧ (mkConfig c).batchInterval ≠ 0
        ∧ (mkConfig c).endpoint ≠ "" := by
  refine ⟨rfl, rfl, by decide, rfl, rfl, by decide, rfl, ?_⟩
  intro c
  refine ⟨?_, ?_, ?_⟩
  · show jsOrInt c.batchSize 10 ≠ 0
    cases c.batchSize with
    | none => simp [jsOrInt]
    | some x =>
      simp only [jsOrInt]
      split
      · norm_num
      · assumption
  · show jsOrInt c.batchInterval 5000 ≠ 0
    cases c.batchInterval with
    | none => simp [jsOrInt]
    | some x =>
      simp only [jsOrInt]
      split
      · norm_num
      · assumption
  · show jsOrStr (c.endpoint.map stripTrailingSlash)
        "https://api.insaneanalytics.com" ≠ ""
    cases c.endpoint.map stripTrailingSlash with
    | none => simp only [jsOrStr]; decide
    | some s =>
      simp only [jsOrStr]
      split
      · decide
      · assumption

/-! ## C10 -/

lemma jsGet_append (a b : List (String × V)) (k : String) :
    jsGet (a ++ b) k = (jsGet b k).or (jsGet a k) := by
  unfold jsGet
  rw [List.reverse_append, List.find?_append]
  cases b.reverse.find? (fun p => p.1 == k) <;> simp

/-- C10: the `track` method spreads the caller-supplied payload into the top
level of the event literal *after* the envelope bindings, so a payload
key equal to an envelope field (`eventType`, `timestamp`, `visitorId`,
`sessionId`, `domainId`, `url`, `userAgent`) overwrites the envelope
value; keys absent from the payload keep the envelope value; the event's
keys are exactly the seven envelope keys followed by the payload keys,
and no `payload` key exists unless the caller supplies one. -/
theorem track_payload_overwrites_envelope :
    (∀ (e : Envelope V) (data : List (String × V)) (k : String),
        k ∈ data.map Prod.fst → jsGet (mkEvent e data) k = jsGet data k)
    ∧ (∀ (e : Envelope V) (data : List (String × V)) (k : String),
        k ∉ data.map Prod.fst →
          jsGet (mkEvent e data) k = jsGet (envelopeFields e) k)
    ∧ (∀ (e : Envelope V) (data : List (String × V)),
        (mkEvent e data).map Prod.fst
          = ["eventType", "timestamp", "visitorId", "sessionId",
             "domainId", "url", "userAgent"] ++ data.map Prod.fst)
    ∧ "payload" ∉ (["eventType", "timestamp", "visitorId", "sessionId",
        "domainId", "url", "userAgent"] : List String) := by
  refine ⟨?_, ?_, ?_, by decide⟩
  · intro e data k hk
    rw [mkEvent, jsGet_append]
    obtain ⟨p, hp, hpk⟩ := List.mem_map.mp hk
    have hsome : (data.reverse.find? (fun q => q.1 == k)).isSome :=
      List.find?_isSome.mpr ⟨p, List.mem_reverse.mpr hp, by simp [hpk]⟩
    unfold jsGet
    obtain ⟨v, hv⟩ := Option.isSome_iff_exists.mp hsome
    simp [hv]
  · intro e data k hk
    rw [mkEvent, jsGet_append]
    have hnone : data.reverse.find? (fun q => q.1 == k) = none :=
      List.find?_eq_none.mpr (fun q hq => by
        simp only [beq_iff_eq]
        intro hqk
        exact hk (List.mem_map.mpr ⟨q, List.mem_reverse.mp hq, hqk⟩))
    show (jsGet data k).or (jsGet (envelopeFields e) k)
        = jsGet (envelopeFields e) k
    unfold jsGet
    rw [hnone]
    simp
  · intro e data
    simp [mkEvent, envelopeFields]

/-- Witness for `track_payload_overwrites_envelope` on an envelope with
values `1..7` and payload `[("timestamp", 99)]`: the payload overwrites
`timestamp`, while a key outside the payload (`url`) resolves to the
envelope. -/
theorem track_payload_overwrites_envelope_witness :
    jsGet (mkEvent (⟨1, 2, 3, 4, 5, 6, 7⟩ : Envelope ℤ)
        [("timestamp", 99)]) "timestamp"
      = jsGet [("timestamp", (99 : ℤ))] "timestamp"
    ∧ jsGet (mkEvent (⟨1, 2, 3, 4, 5, 6, 7⟩ : Envelope ℤ)
        [("timestamp", 99)]) "url"
      = jsGet (envelopeFields (⟨1, 2, 3, 4, 5, 6, 7⟩ : Envelope ℤ)) "url" :=
  ⟨track_payload_overwrites_envelope.1 ⟨1, 2, 3, 4, 5, 6, 7⟩
      [("timestamp", 99)] "timestamp" (by simp),
   track_payload_overwrites_envelope.2.1 ⟨1, 2, 3, 4, 5, 6, 7⟩
      [("timestamp", 99)] "url" (by simp)⟩

end InsaneAnalytics
